import Mathlib

/-!
Shallow embedding of the review-analysis API route
(`src/app/api/analyze/route.ts`) of the reviewInsight repository.

The route is a single handler `POST` that
  1. checks the OpenAI API key and the `reviews` field of the request body,
  2. branches on `locale === 'ko'` into a two-pass strategy (sentiment
     classification, then keyword extraction) or a single-pass strategy,
  3. for each model response, extracts the greedy first-brace/last-brace
     span (`text.match(/\x7b[\s\S]*\x7d/)`), parses it with `JSON.parse`,
     and normalizes the `positive`/`negative` percentage fields,
  4. returns either the normalized payload or `\x7b error: string \x7d`.

JavaScript values are modelled by `JsValue`; JavaScript numbers by
`JsNumber`: NaN, the infinities, or a finite value carried as an
unreduced fraction `Frac` (binary-float rounding is not modelled, which
is exact on all inputs considered here).  `Frac` is interpreted into ℚ
by `Frac.toRat`; keeping fractions unreduced makes every operation
reduce definitionally, while all sign and zero tests are phrased so that
they agree with the ℚ interpretation on every fraction.  The external
OpenAI calls are modelled as oracle parameters: each call either throws
(with an error message) or yields the message content string.
-/

/-- A finite JavaScript number as an unreduced fraction.  Every fraction
built by the embedding has a positive denominator; operations and tests
are nevertheless total and agree with the `toRat` interpretation on all
inputs. -/
structure Frac where
  num : Int
  den : Int
deriving DecidableEq, Repr

namespace Frac

/-- Interpretation into ℚ (a zero denominator interprets as 0). -/
def toRat (f : Frac) : ℚ := (f.num : ℚ) / (f.den : ℚ)

/-- An integer as a fraction. -/
def ofInt (n : Int) : Frac := ⟨n, 1⟩

/-- Unreduced fraction multiplication. -/
def mul (a b : Frac) : Frac := ⟨a.num * b.num, a.den * b.den⟩

/-- Unreduced fraction division. -/
def div (a b : Frac) : Frac := ⟨a.num * b.den, a.den * b.num⟩

/-- Negation. -/
def neg (a : Frac) : Frac := ⟨-a.num, a.den⟩

/-- Zero test, agreeing with `toRat = 0` on every fraction. -/
def isZero (a : Frac) : Bool := a.num * a.den = 0

/-- Positivity test, agreeing with `0 < toRat` on every fraction. -/
def isPos (a : Frac) : Bool := 0 < a.num * a.den

/-- Nonnegativity test, agreeing with `0 ≤ toRat` on every fraction. -/
def isNonneg (a : Frac) : Bool := 0 ≤ a.num * a.den

end Frac

/-- A JavaScript number: NaN, the two infinities, or a finite value. -/
inductive JsNumber where
  | nan : JsNumber
  | inf : JsNumber
  | negInf : JsNumber
  | val : Frac → JsNumber
deriving DecidableEq, Repr

/-- A JavaScript value as far as the route manipulates them: `undefined`
is what property access on a missing key yields; objects are ordered
field lists (`JSON.parse` keeps at most one binding per key). -/
inductive JsValue where
  | undefined : JsValue
  | null : JsValue
  | bool : Bool → JsValue
  | num : JsNumber → JsValue
  | str : String → JsValue
  | arr : List JsValue → JsValue
  | obj : List (String × JsValue) → JsValue

namespace JsValue

/-- JavaScript falsiness: `undefined`, `null`, `false`, `±0`, `NaN`, `""`. -/
def jsFalsy : JsValue → Bool
  | .undefined => true
  | .null => true
  | .bool b => !b
  | .num .nan => true
  | .num (.val q) => q.isZero
  | .num _ => false
  | .str s => s = ""
  | .arr _ => false
  | .obj _ => false

/-- `Array.isArray`. -/
def isArrayV : JsValue → Bool
  | .arr _ => true
  | _ => false

/-- `.length` of an array value (only ever read behind an
`Array.isArray` guard in the route). -/
def arrLen : JsValue → Nat
  | .arr xs => xs.length
  | _ => 0

/-- Underlying list of an array value (only read behind an
`Array.isArray` guard in the route). -/
def toArr : JsValue → List JsValue
  | .arr xs => xs
  | _ => []

/-- Property read on an object field list: first binding wins (the
parser keeps keys unique). -/
def lookupField : List (String × JsValue) → String → JsValue
  | [], _ => .undefined
  | (k', v) :: fs, k => if k' = k then v else lookupField fs k

/-- `v.k`: property read; non-objects yield `undefined` here (the route
only reads properties of parsed JSON objects). -/
def jsGet (v : JsValue) (k : String) : JsValue :=
  match v with
  | .obj fs => lookupField fs k
  | _ => .undefined

/-- Replace the binding of `k` in place, or append it. -/
def setField : List (String × JsValue) → String → JsValue → List (String × JsValue)
  | [], k, x => [(k, x)]
  | (k', v) :: fs, k, x => if k' = k then (k, x) :: fs else (k', v) :: setField fs k x

/-- `v.k = x`: property write; a no-op on non-objects (the route only
assigns onto parsed JSON objects). -/
def jsSet (v : JsValue) (k : String) (x : JsValue) : JsValue :=
  match v with
  | .obj fs => .obj (setField fs k x)
  | _ => v

end JsValue

namespace JsNumber

/-- ECMAScript division on numbers (a `-0` result is modelled as `0`). -/
def jsDiv : JsNumber → JsNumber → JsNumber
  | .nan, _ => .nan
  | _, .nan => .nan
  | .inf, .inf => .nan
  | .inf, .negInf => .nan
  | .negInf, .inf => .nan
  | .negInf, .negInf => .nan
  | .inf, .val q => if q.isNonneg then .inf else .negInf
  | .negInf, .val q => if q.isNonneg then .negInf else .inf
  | .val _, .inf => .val (.ofInt 0)
  | .val _, .negInf => .val (.ofInt 0)
  | .val p, .val q =>
      if q.isZero then (if p.isZero then .nan else if p.isPos then .inf else .negInf)
      else .val (p.div q)

/-- ECMAScript multiplication on numbers. -/
def jsMul : JsNumber → JsNumber → JsNumber
  | .nan, _ => .nan
  | _, .nan => .nan
  | .inf, .inf => .inf
  | .inf, .negInf => .negInf
  | .negInf, .inf => .negInf
  | .negInf, .negInf => .inf
  | .inf, .val q => if q.isZero then .nan else if q.isPos then .inf else .negInf
  | .val q, .inf => if q.isZero then .nan else if q.isPos then .inf else .negInf
  | .negInf, .val q => if q.isZero then .nan else if q.isPos then .negInf else .inf
  | .val q, .negInf => if q.isZero then .nan else if q.isPos then .negInf else .inf
  | .val p, .val q => .val (p.mul q)

end JsNumber

/-! ### ECMAScript string-to-number coercion (ToNumber on strings) -/

/-- ECMAScript string whitespace characters relevant here. -/
def isJsWs (c : Char) : Bool :=
  c = ' ' ∨ c = '\t' ∨ c = '\n' ∨ c = '\r' ∨ c = '\x0b' ∨ c = '\x0c' ∨ c = '\xa0'

/-- Longest decimal-digit prefix and the remainder. -/
def digitSpan (cs : List Char) : List Char × List Char :=
  (cs.takeWhile Char.isDigit, cs.dropWhile Char.isDigit)

/-- Value of a decimal digit string. -/
def digitsToNat (ds : List Char) : Nat :=
  ds.foldl (fun n c => 10 * n + (c.toNat - 48)) 0

/-- Value of a hexadecimal digit, if any. -/
def hexDigitVal (c : Char) : Option Nat :=
  if c.isDigit then some (c.toNat - 48)
  else if 'a' ≤ c ∧ c ≤ 'f' then some (c.toNat - 87)
  else if 'A' ≤ c ∧ c ≤ 'F' then some (c.toNat - 55)
  else none

/-- Value of a non-empty all-hexadecimal digit string, if so. -/
def hexToNat : List Char → Option Nat
  | [] => none
  | [c] => hexDigitVal c
  | c :: r =>
    match hexDigitVal c, hexToNat r with
    | some d, some n => some (d * 16 ^ r.length + n)
    | _, _ => none

/-- The fraction `intDs.fracDs × 10 ^ e` (all operations structural, so
this reduces definitionally; the denominator is always positive). -/
def decToFrac (intDs fracDs : List Char) (e : Int) : Frac :=
  let m : Int := (digitsToNat intDs : Int) * 10 ^ fracDs.length + (digitsToNat fracDs : Int)
  if 0 ≤ e then ⟨m * 10 ^ e.toNat, 10 ^ fracDs.length⟩
  else ⟨m, (10 : Int) ^ fracDs.length * 10 ^ (-e).toNat⟩

/-- Decimal-literal tail of ECMAScript string coercion: digits, optional
fraction, optional exponent; the whole remainder must be consumed. -/
def parseDecTail (cs : List Char) : Option Frac :=
  let (intDs, r1) := digitSpan cs
  let (fracDs, r2) : List Char × List Char :=
    match r1 with
    | '.' :: rr => digitSpan rr
    | _ => ([], r1)
  if intDs.isEmpty ∧ fracDs.isEmpty then none
  else
    match r2 with
    | [] => some (decToFrac intDs fracDs 0)
    | 'e' :: r3 | 'E' :: r3 =>
      let (sgn, r4) : Int × List Char :=
        match r3 with
        | '+' :: rr => (1, rr)
        | '-' :: rr => (-1, rr)
        | _ => (1, r3)
      let (eDs, r5) := digitSpan r4
      if eDs.isEmpty ∨ ¬ r5.isEmpty then none
      else some (decToFrac intDs fracDs (sgn * digitsToNat eDs))
    | _ => none

/-- ECMAScript ToNumber on a string: trim, empty is 0, hex literals,
signed `Infinity`, signed decimal literal; anything else is NaN. -/
def strToNumber (s : String) : JsNumber :=
  let cs := ((s.data.dropWhile isJsWs).reverse.dropWhile isJsWs).reverse
  match cs with
  | [] => .val (.ofInt 0)
  | '0' :: 'x' :: r | '0' :: 'X' :: r =>
    (match hexToNat r with
     | some n => .val (.ofInt n)
     | none => .nan)
  | _ =>
    let (isNeg, r) : Bool × List Char :=
      match cs with
      | '+' :: rr => (false, rr)
      | '-' :: rr => (true, rr)
      | _ => (false, cs)
    if r = ['I', 'n', 'f', 'i', 'n', 'i', 't', 'y'] then
      (if isNeg then .negInf else .inf)
    else
      match parseDecTail r with
      | some q => .val (if isNeg then q.neg else q)
      | none => .nan

/-- ECMAScript ToNumber.  Arrays coerce through their joined string
form: `[]` is 0, a one-element array coerces as its element (exact for
every JSON-derived value), longer joins are never numeric; plain objects
stringify to `[object Object]`, which is NaN. -/
def toNumber : JsValue → JsNumber
  | .undefined => .nan
  | .null => .val (.ofInt 0)
  | .bool b => .val (.ofInt (if b then 1 else 0))
  | .num n => n
  | .str s => strToNumber s
  | .arr [] => .val (.ofInt 0)
  | .arr [x] => toNumber x
  | .arr _ => .nan
  | .obj _ => .nan

/-- The JavaScript comparison `v > 0` (ToNumber, then numeric order;
NaN compares false). -/
def jsGtZero (v : JsValue) : Bool :=
  match toNumber v with
  | .nan => false
  | .inf => true
  | .negInf => false
  | .val q => q.isPos

/-! ### `JSON.parse`, modelled by a fuel-indexed recursive-descent parser
over the JSON grammar (objects, arrays, strings with escapes, numbers,
`true`/`false`/`null`; strict syntax, whole input consumed). -/

/-- Skip JSON insignificant whitespace. -/
def skipWs : List Char → List Char
  | [] => []
  | c :: r => if c = ' ' ∨ c = '\t' ∨ c = '\n' ∨ c = '\r' then skipWs r else c :: r

/-- Consume an expected literal character sequence. -/
def expectChars : List Char → List Char → Option (List Char)
  | [], cs => some cs
  | e :: es, c :: cs => if c = e then expectChars es cs else none
  | _ :: _, [] => none

/-- A JSON string escape character. -/
def escChar : Char → Option Char
  | '"' => some '"'
  | '\\' => some '\\'
  | '/' => some '/'
  | 'b' => some '\x08'
  | 'f' => some '\x0c'
  | 'n' => some '\n'
  | 'r' => some '\r'
  | 't' => some '\t'
  | _ => none

/-- Body of a JSON string after the opening quote: content and rest. -/
def parseStringRest : List Char → Option (List Char × List Char)
  | [] => none
  | '"' :: r => some ([], r)
  | '\\' :: 'u' :: h1 :: h2 :: h3 :: h4 :: r =>
    (match hexDigitVal h1, hexDigitVal h2, hexDigitVal h3, hexDigitVal h4 with
     | some a, some b, some c, some d =>
       (parseStringRest r).map
         (fun p => (Char.ofNat (((a * 16 + b) * 16 + c) * 16 + d) :: p.1, p.2))
     | _, _, _, _ => none)
  | '\\' :: e :: r =>
    (match escChar e with
     | some c => (parseStringRest r).map (fun p => (c :: p.1, p.2))
     | none => none)
  | c :: r =>
    if c.toNat < 32 then none
    else (parseStringRest r).map (fun p => (c :: p.1, p.2))

/-- Exponent-and-finish tail of a JSON number. -/
def parseExpPart (intDs fracDs : List Char) (isNeg : Bool) (cs : List Char) :
    Option (Frac × List Char) :=
  match cs with
  | 'e' :: r | 'E' :: r =>
    let (sgn, r1) : Int × List Char :=
      match r with
      | '+' :: rr => (1, rr)
      | '-' :: rr => (-1, rr)
      | _ => (1, r)
    let (eDs, r2) := digitSpan r1
    if eDs.isEmpty then none
    else
      let q := decToFrac intDs fracDs (sgn * digitsToNat eDs)
      some (if isNeg then q.neg else q, r2)
  | _ =>
    let q := decToFrac intDs fracDs 0
    some (if isNeg then q.neg else q, cs)

/-- A JSON number literal: optional minus, `0` or a nonzero-led digit
run, optional fraction, optional exponent (a leading-zero integer stops
after the `0`, exactly as JSON's grammar does). -/
def parseJsonNumber (cs : List Char) : Option (Frac × List Char) :=
  let (isNeg, cs1) : Bool × List Char :=
    match cs with
    | '-' :: r => (true, r)
    | _ => (false, cs)
  match cs1 with
  | [] => none
  | c :: r =>
    if c = '0' then
      match r with
      | '.' :: rr =>
        let (fracDs, r2) := digitSpan rr
        if fracDs.isEmpty then none else parseExpPart ['0'] fracDs isNeg r2
      | _ => parseExpPart ['0'] [] isNeg r
    else if c.isDigit then
      let (intDs, r1) := digitSpan (c :: r)
      match r1 with
      | '.' :: rr =>
        let (fracDs, r2) := digitSpan rr
        if fracDs.isEmpty then none else parseExpPart intDs fracDs isNeg r2
      | _ => parseExpPart intDs [] isNeg r1
    else none

mutual

/-- A JSON value (fuel-indexed; fuel only bounds recursion depth). -/
def parseVal : Nat → List Char → Option (JsValue × List Char)
  | 0, _ => none
  | f + 1, cs =>
    match skipWs cs with
    | [] => none
    | c :: r =>
      if c = '\x7b' then
        match skipWs r with
        | '\x7d' :: r2 => some (.obj [], r2)
        | r' => (parseMembers f [] r').map (fun p => (JsValue.obj p.1, p.2))
      else if c = '[' then
        match skipWs r with
        | ']' :: r2 => some (.arr [], r2)
        | r' => (parseItems f [] r').map (fun p => (JsValue.arr p.1, p.2))
      else if c = '"' then
        (parseStringRest r).map (fun p => (JsValue.str (String.mk p.1), p.2))
      else if c = 'n' then (expectChars ['u', 'l', 'l'] r).map (fun rr => (JsValue.null, rr))
      else if c = 't' then (expectChars ['r', 'u', 'e'] r).map (fun rr => (JsValue.bool true, rr))
      else if c = 'f' then
        (expectChars ['a', 'l', 's', 'e'] r).map (fun rr => (JsValue.bool false, rr))
      else if c = '-' ∨ c.isDigit then
        (parseJsonNumber (c :: r)).map (fun p => (JsValue.num (.val p.1), p.2))
      else none

/-- Members of a JSON object, positioned at a key; duplicate keys keep
the first position and the last value, as `JSON.parse` does. -/
def parseMembers : Nat → List (String × JsValue) → List Char →
    Option (List (String × JsValue) × List Char)
  | 0, _, _ => none
  | f + 1, acc, cs =>
    match cs with
    | '"' :: r =>
      (match parseStringRest r with
       | none => none
       | some (key, r1) =>
         match skipWs r1 with
         | ':' :: r2 =>
           (match parseVal f r2 with
            | none => none
            | some (v, r3) =>
              let acc' := JsValue.setField acc (String.mk key) v
              match skipWs r3 with
              | ',' :: r4 => parseMembers f acc' (skipWs r4)
              | '\x7d' :: r4 => some (acc', r4)
              | _ => none)
         | _ => none)
    | _ => none

/-- Items of a JSON array, positioned at a value. -/
def parseItems : Nat → List JsValue → List Char → Option (List JsValue × List Char)
  | 0, _, _ => none
  | f + 1, acc, cs =>
    match parseVal f cs with
    | none => none
    | some (v, r) =>
      match skipWs r with
      | ',' :: r2 => parseItems f (acc ++ [v]) r2
      | ']' :: r2 => some (acc ++ [v], r2)
      | _ => none

end

/-- `JSON.parse`: parse one JSON value consuming the entire input (up to
trailing whitespace).  The fuel `2·|cs| + 2` strictly dominates the
recursion depth on any input. -/
def parseJson (cs : List Char) : Option JsValue :=
  (parseVal (2 * cs.length + 2) cs).bind
    (fun p => if (skipWs p.2).isEmpty then some p.1 else none)

/-! ### The response extractor: `text.match(/\x7b[\s\S]*\x7d/)` takes the
greedy span from the first opening brace to the last closing brace. -/

/-- Suffix of the input starting at its first opening brace. -/
def firstBraceSplit : List Char → Option (List Char)
  | [] => none
  | c :: r => if c = '\x7b' then some (c :: r) else firstBraceSplit r

/-- Prefix of the input ending at its last closing brace. -/
def upToLastClose : List Char → Option (List Char)
  | [] => none
  | c :: r =>
    match upToLastClose r with
    | some t => some (c :: t)
    | none => if c = '\x7d' then some [c] else none

/-- The span matched by the greedy regex `/\x7b[\s\S]*\x7d/`: from the
first opening brace to the last closing brace, when the latter comes
after the former. -/
def braceSpan (cs : List Char) : Option (List Char) :=
  (firstBraceSplit cs).bind upToLastClose

/-- The route's extraction step: greedy brace span, then `JSON.parse`;
`none` covers both a null regex match and a parse exception. -/
def extractJson (text : String) : Option JsValue :=
  (braceSpan text.data).bind parseJson

/-! ### The route handler -/

open JsValue

/-- The HTTP response produced by the route: a JSON body and a status. -/
structure HttpResponse where
  body : JsValue
  status : Nat

/-- `NextResponse.json(v)` (default status 200). -/
def jsonResponse (v : JsValue) : HttpResponse := ⟨v, 200⟩

/-- `NextResponse.json(\x7b error: msg \x7d, \x7b status \x7d)`. -/
def errorResponse (msg : String) (status : Nat) : HttpResponse :=
  ⟨.obj [("error", .str msg)], status⟩

/-- `err.message || 'default'`. -/
def msgOr (m d : String) : String := if m = "" then d else m

/-- One OpenAI chat-completion outcome, as the route observes it: either
the call threw (carrying the error's message) or it returned, with the
message content after the route's `|| ''` defaulting. -/
abbrev Completion := Except String String

/-- The message of the exception `JSON.parse` throws on invalid input.
Its concrete text is supplied by the JavaScript engine; the route only
ever forwards it, so a fixed representative models it. -/
def jsonParseErrorMessage : String := "Unexpected token in JSON"

/-- Falsiness of `process.env.OPENAI_API_KEY`: absent or empty. -/
def envFalsy : Option String → Bool
  | none => true
  | some s => s = ""

/-- `locale === 'ko'` (strict equality against the string literal). -/
def isKoLocale : JsValue → Bool
  | .str s => s = "ko"
  | _ => false

/-- Stage 1 of the two-pass branch after its chat call (`route.ts`,
first `try` block): regex match — a null match leaves `sentimentJson`
null — then `JSON.parse` (a throw is caught with the engine's message),
then `if (!sentimentJson || !Array.isArray(sentimentJson.sentiments))`,
then the length check against `reviews.length`.  The `.error` value is
the caught exception's message. -/
def sentimentStep : Completion → Nat → Except String (List JsValue)
  | .error e, _ => .error e
  | .ok text, reviewsLength =>
    match braceSpan text.data with
    | none => .error "No valid sentiments array in OpenAI response"
    | some span =>
      match parseJson span with
      | none => .error jsonParseErrorMessage
      | some j =>
        if j.jsFalsy || !(j.jsGet "sentiments").isArrayV then
          .error "No valid sentiments array in OpenAI response"
        else
          let sentiments := (j.jsGet "sentiments").toArr
          if sentiments.length ≠ reviewsLength then .error "Sentiment array length mismatch"
          else .ok sentiments

/-- `typeof v === 'number' && !isNaN(v)`: the guard under which the
route keeps a model-reported percentage field. -/
def isNumberNonNaN : JsValue → Bool
  | .num .nan => false
  | .num _ => true
  | _ => false

/-- The percentage fallback
`json.totalCount > 0 ? (json.positiveCount / json.totalCount) * 100 : 0`
(and the same for the negative side). -/
def pctFallback (count total : JsValue) : JsNumber :=
  if jsGtZero total then
    JsNumber.jsMul (JsNumber.jsDiv (toNumber count) (toNumber total)) (.val (.ofInt 100))
  else .val (.ofInt 0)

/-- `if (typeof json.positive !== 'number' || isNaN(json.positive))
json.positive = json.totalCount > 0 ? … : 0`. -/
def normalizePositive (j : JsValue) : JsValue :=
  if isNumberNonNaN (j.jsGet "positive") then j
  else j.jsSet "positive" (.num (pctFallback (j.jsGet "positiveCount") (j.jsGet "totalCount")))

/-- The same in-place backfill for the `negative` field. -/
def normalizeNegative (j : JsValue) : JsValue :=
  if isNumberNonNaN (j.jsGet "negative") then j
  else j.jsSet "negative" (.num (pctFallback (j.jsGet "negativeCount") (j.jsGet "totalCount")))

/-- The route's in-place normalization of a parsed payload: backfill
`positive` and then `negative` when absent, non-numeric, or NaN; no
other field is touched. -/
def normalizeResult (j : JsValue) : JsValue :=
  normalizeNegative (normalizePositive j)

/-- The final extraction/normalization step shared by the single-pass
branch and stage 2 of the two-pass branch: regex match (a null match
leaves the parsed value null, hence the `!json` throw with the
branch-specific message), `JSON.parse`, then normalization. -/
def finalStep : Completion → String → Except String JsValue
  | .error e, _ => .error e
  | .ok text, missingMsg =>
    match braceSpan text.data with
    | none => .error missingMsg
    | some span =>
      match parseJson span with
      | none => .error jsonParseErrorMessage
      | some j =>
        if j.jsFalsy then .error missingMsg
        else .ok (normalizeResult j)

/-- The request handler.  `apiKey` models `process.env.OPENAI_API_KEY`;
`reviews` and `locale` are the destructured request-body fields; `c1`
and `c2` are the outcomes of the first and the second chat-completion
call (the second is reachable only in the two-pass branch; the validated
stage-1 sentiments feed only the stage-2 prompt, whose outcome is the
oracle `c2`).  Returns the response paired with the number of inference
calls performed. -/
def POST (apiKey : Option String) (reviews locale : JsValue) (c1 c2 : Completion) :
    HttpResponse × Nat :=
  if envFalsy apiKey then (errorResponse "OpenAI API key not set." 500, 0)
  else if reviews.jsFalsy || !reviews.isArrayV || reviews.arrLen == 0 then
    (errorResponse "No reviews provided." 400, 0)
  else if isKoLocale locale then
    match sentimentStep c1 reviews.arrLen with
    | .error e => (errorResponse (msgOr e "OpenAI sentiment step error") 500, 1)
    | .ok _sentiments =>
      match finalStep c2 "No JSON in OpenAI keyword response" with
      | .error e => (errorResponse (msgOr e "OpenAI keyword step error") 500, 2)
      | .ok body => (jsonResponse body, 2)
  else
    match finalStep c1 "No JSON in OpenAI response" with
    | .error e => (errorResponse (msgOr e "OpenAI error") 500, 1)
    | .ok body => (jsonResponse body, 1)

/-! ### Prompt-side review-list rendering (used by every prompt) -/

mutual

/-- Template-literal string coercion.  Integer numbers render exactly;
a non-integral fraction renders as `num/den` here whereas the engine
prints a decimal expansion — no reasoning below exercises that case.
Array elements render as in `Array.prototype.join`, where `null` and
`undefined` become empty. -/
def jsDisplay : JsValue → String
  | .undefined => "undefined"
  | .null => "null"
  | .bool b => if b then "true" else "false"
  | .num .nan => "NaN"
  | .num .inf => "Infinity"
  | .num .negInf => "-Infinity"
  | .num (.val f) =>
    if f.den = 1 then toString f.num else toString f.num ++ "/" ++ toString f.den
  | .str s => s
  | .arr xs => String.intercalate "," (jsDisplayElems xs)
  | .obj _ => "[object Object]"

/-- Elements of a joined array: `null` and `undefined` become empty. -/
def jsDisplayElems : List JsValue → List String
  | [] => []
  | .null :: r => "" :: jsDisplayElems r
  | .undefined :: r => "" :: jsDisplayElems r
  | x :: r => jsDisplay x :: jsDisplayElems r

end

/-- The review list embedded verbatim in every prompt:
`reviews.map((r, i) => (i + 1) + '. ' + r).join('\n')` — elements are
interpolated as-is, with no trimming or filtering. -/
def renderReviewList (reviews : List JsValue) : String :=
  String.intercalate "\n"
    (reviews.enum.map (fun p => toString (p.1 + 1) ++ ". " ++ jsDisplay p.2))

/-- Stated from the spec for claim C8 — the code has no such check:
every entry of any keyword's `reviewIndices` is a number whose value is
`≥ 0` and `< totalCount`. -/
def SpecIndexIntegrity (body : JsValue) : Prop :=
  ∀ kw ∈ (body.jsGet "keywords").toArr,
    ∀ i ∈ (kw.jsGet "reviewIndices").toArr,
      ∃ f : Frac, i = .num (.val f) ∧ 0 ≤ f.toRat ∧
        ∃ t : Frac, body.jsGet "totalCount" = .num (.val t) ∧ f.toRat < t.toRat

/-! ### Helper lemmas -/

theorem Frac.toRat_ofInt (n : Int) : (ofInt n).toRat = n := by
  simp [ofInt, toRat]

theorem Frac.isZero_iff (a : Frac) : a.isZero = true ↔ a.toRat = 0 := by
  rcases a with ⟨n, d⟩
  simp only [isZero, decide_eq_true_eq, toRat]
  rw [div_eq_zero_iff, mul_eq_zero]
  exact_mod_cast Iff.rfl

theorem Frac.isPos_iff (a : Frac) : a.isPos = true ↔ 0 < a.toRat := by
  rcases a with ⟨n, d⟩
  simp only [isPos, decide_eq_true_eq, toRat]
  rw [div_pos_iff, mul_pos_iff]
  exact_mod_cast Iff.rfl

theorem Frac.isNonneg_iff (a : Frac) : a.isNonneg = true ↔ 0 ≤ a.toRat := by
  rcases a with ⟨n, d⟩
  simp only [isNonneg, decide_eq_true_eq, toRat]
  rw [div_nonneg_iff, mul_nonneg_iff]
  exact_mod_cast Iff.rfl

theorem Frac.toRat_mul (a b : Frac) : (a.mul b).toRat = a.toRat * b.toRat := by
  simp only [mul, toRat]
  push_cast
  rw [div_mul_div_comm]

theorem Frac.toRat_div (a b : Frac) : (a.div b).toRat = a.toRat / b.toRat := by
  simp only [div, toRat]
  push_cast
  rw [div_div_eq_mul_div, div_mul_eq_mul_div, div_div]

theorem Frac.toRat_neg (a : Frac) : a.neg.toRat = -a.toRat := by
  simp [neg, toRat, neg_div]

theorem Frac.isZero_false_of_isPos (a : Frac) (h : a.isPos = true) : a.isZero = false := by
  simp only [isPos, decide_eq_true_eq] at h
  simp only [isZero, decide_eq_false_iff_not]
  omega

theorem lookupField_setField_ne (fs : List (String × JsValue)) (k k' : String) (x : JsValue)
    (h : k ≠ k') : lookupField (setField fs k x) k' = lookupField fs k' := by
  induction fs with
  | nil => simp [setField, lookupField, h]
  | cons p fs ih =>
    rcases p with ⟨k0, v0⟩
    by_cases hk : k0 = k
    · subst hk
      simp [setField, lookupField, h]
    · simp [setField, lookupField, hk, ih]

theorem lookupField_setField_eq (fs : List (String × JsValue)) (k : String) (x : JsValue) :
    lookupField (setField fs k x) k = x := by
  induction fs with
  | nil => simp [setField, lookupField]
  | cons p fs ih =>
    rcases p with ⟨k0, v0⟩
    by_cases hk : k0 = k
    · subst hk
      simp [setField, lookupField]
    · simp [setField, lookupField, hk, ih]

theorem jsGet_jsSet_ne (v : JsValue) (k k' : String) (x : JsValue) (h : k ≠ k') :
    (v.jsSet k x).jsGet k' = v.jsGet k' := by
  cases v <;> simp [jsSet, jsGet, lookupField_setField_ne _ _ _ _ h]

theorem jsGet_jsSet_eq (fs : List (String × JsValue)) (k : String) (x : JsValue) :
    ((JsValue.obj fs).jsSet k x).jsGet k = x := by
  simp [jsSet, jsGet, lookupField_setField_eq]

theorem msgOr_ne_empty (m d : String) (hd : d ≠ "") : msgOr m d ≠ "" := by
  unfold msgOr
  split <;> simp_all

theorem isNumberNonNaN_num (v : JsValue) (h : isNumberNonNaN v = true) :
    ∃ n, v = .num n := by
  cases v with
  | num n => exact ⟨n, rfl⟩
  | undefined => simp [isNumberNonNaN] at h
  | null => simp [isNumberNonNaN] at h
  | bool b => simp [isNumberNonNaN] at h
  | str s => simp [isNumberNonNaN] at h
  | arr xs => simp [isNumberNonNaN] at h
  | obj fs => simp [isNumberNonNaN] at h

/-- The positive-side backfill touches no key other than `positive`. -/
theorem normalizePositive_frame (j : JsValue) (k : String) (hp : k ≠ "positive") :
    (normalizePositive j).jsGet k = j.jsGet k := by
  unfold normalizePositive
  split
  · rfl
  · exact jsGet_jsSet_ne _ _ _ _ (Ne.symm hp)

/-- The negative-side backfill touches no key other than `negative`. -/
theorem normalizeNegative_frame (j : JsValue) (k : String) (hn : k ≠ "negative") :
    (normalizeNegative j).jsGet k = j.jsGet k := by
  unfold normalizeNegative
  split
  · rfl
  · exact jsGet_jsSet_ne _ _ _ _ (Ne.symm hn)

/-- The normalizer touches at most the `positive` and `negative` keys. -/
theorem normalizeResult_frame (j : JsValue) (k : String)
    (hp : k ≠ "positive") (hn : k ≠ "negative") :
    (normalizeResult j).jsGet k = j.jsGet k := by
  unfold normalizeResult
  rw [normalizeNegative_frame _ _ hn, normalizePositive_frame _ _ hp]

/-- A model-reported numeric non-NaN `positive` survives normalization. -/
theorem normalizeResult_keeps_positive (j : JsValue)
    (h : isNumberNonNaN (j.jsGet "positive") = true) :
    (normalizeResult j).jsGet "positive" = j.jsGet "positive" := by
  unfold normalizeResult
  rw [normalizeNegative_frame _ _ (by decide)]
  unfold normalizePositive
  rw [if_pos h]

/-- A model-reported numeric non-NaN `negative` survives normalization. -/
theorem normalizeResult_keeps_negative (j : JsValue)
    (h : isNumberNonNaN (j.jsGet "negative") = true) :
    (normalizeResult j).jsGet "negative" = j.jsGet "negative" := by
  unfold normalizeResult
  have hfr : (normalizePositive j).jsGet "negative" = j.jsGet "negative" :=
    normalizePositive_frame _ _ (by decide)
  unfold normalizeNegative
  rw [hfr, if_pos h, hfr]

/-- The positive-side backfill keeps the value an object. -/
theorem normalizePositive_obj (fs : List (String × JsValue)) :
    ∃ gs, normalizePositive (.obj fs) = .obj gs := by
  unfold normalizePositive
  split
  · exact ⟨fs, rfl⟩
  · exact ⟨_, rfl⟩

/-- After normalization of a parsed object, `positive` and `negative`
are number-typed fields (possibly NaN, possibly out of range). -/
theorem normalizeResult_isNum (fs : List (String × JsValue)) :
    (∃ n, (normalizeResult (.obj fs)).jsGet "positive" = .num n)
    ∧ (∃ n, (normalizeResult (.obj fs)).jsGet "negative" = .num n) := by
  constructor
  · by_cases h : isNumberNonNaN ((JsValue.obj fs).jsGet "positive") = true
    · obtain ⟨n, hn⟩ := isNumberNonNaN_num _ h
      exact ⟨n, by rw [normalizeResult_keeps_positive _ h, hn]⟩
    · refine ⟨pctFallback ((JsValue.obj fs).jsGet "positiveCount")
        ((JsValue.obj fs).jsGet "totalCount"), ?_⟩
      unfold normalizeResult
      rw [normalizeNegative_frame _ _ (by decide)]
      unfold normalizePositive
      rw [if_neg h]
      exact jsGet_jsSet_eq _ _ _
  · obtain ⟨gs, hgs⟩ := normalizePositive_obj fs
    unfold normalizeResult
    rw [hgs]
    by_cases h : isNumberNonNaN ((JsValue.obj gs).jsGet "negative") = true
    · obtain ⟨n, hn⟩ := isNumberNonNaN_num _ h
      refine ⟨n, ?_⟩
      unfold normalizeNegative
      rw [if_pos h, hn]
    · refine ⟨pctFallback ((JsValue.obj gs).jsGet "negativeCount")
        ((JsValue.obj gs).jsGet "totalCount"), ?_⟩
      unfold normalizeNegative
      rw [if_neg h]
      exact jsGet_jsSet_eq _ _ _

theorem firstBraceSplit_shape (cs sp : List Char) (h : firstBraceSplit cs = some sp) :
    ∃ r, sp = '\x7b' :: r := by
  induction cs with
  | nil => simp [firstBraceSplit] at h
  | cons c r ih =>
    by_cases hc : c = '\x7b'
    · subst hc
      simp [firstBraceSplit] at h
      exact ⟨r, h.symm⟩
    · rw [firstBraceSplit, if_neg hc] at h
      exact ih h

theorem firstBraceSplit_none (cs : List Char) (h : '\x7b' ∉ cs) :
    firstBraceSplit cs = none := by
  induction cs with
  | nil => rfl
  | cons c r ih =>
    rw [List.mem_cons, not_or] at h
    rw [firstBraceSplit, if_neg (Ne.symm h.1)]
    exact ih h.2

theorem braceSpan_shape (cs sp : List Char) (h : braceSpan cs = some sp) :
    ∃ r, sp = '\x7b' :: r := by
  unfold braceSpan at h
  rcases Option.bind_eq_some.mp h with ⟨s1, h1, h2⟩
  obtain ⟨r1, rfl⟩ := firstBraceSplit_shape cs s1 h1
  cases hu : upToLastClose r1 with
  | some t =>
    rw [upToLastClose, hu] at h2
    exact ⟨t, (Option.some_inj.mp h2).symm⟩
  | none =>
    rw [upToLastClose, hu] at h2
    simp at h2

theorem skipWs_brace (r : List Char) : skipWs ('\x7b' :: r) = '\x7b' :: r := by
  simp [skipWs]

theorem parseVal_brace_obj (f : Nat) (r rest : List Char) (v : JsValue)
    (h : parseVal f ('\x7b' :: r) = some (v, rest)) : ∃ fs, v = .obj fs := by
  cases f with
  | zero => simp [parseVal] at h
  | succ f =>
    simp only [parseVal, skipWs_brace] at h
    simp only [reduceIte] at h
    split at h
    · exact ⟨[], (Prod.mk.injEq _ _ _ _ ▸ Option.some_inj.mp h).1.symm⟩
    · rcases Option.map_eq_some'.mp h with ⟨p, _, hp⟩
      exact ⟨p.1, (Prod.mk.injEq _ _ _ _ ▸ hp).1.symm⟩

theorem parseJson_obj (r : List Char) (v : JsValue) (h : parseJson ('\x7b' :: r) = some v) :
    ∃ fs, v = .obj fs := by
  unfold parseJson at h
  rcases Option.bind_eq_some.mp h with ⟨p, hp, hif⟩
  rcases p with ⟨w, rest⟩
  obtain ⟨fs, rfl⟩ := parseVal_brace_obj _ _ _ _ hp
  split at hif
  · exact ⟨fs, (Option.some_inj.mp hif).symm⟩
  · simp at hif

theorem extractJson_obj (t : String) (j : JsValue) (h : extractJson t = some j) :
    ∃ fs, j = .obj fs := by
  unfold extractJson at h
  rcases Option.bind_eq_some.mp h with ⟨sp, hsp, hpj⟩
  obtain ⟨r, rfl⟩ := braceSpan_shape _ _ hsp
  exact parseJson_obj _ _ hpj

/-- On a successfully extracted payload the final step succeeds with the
normalized payload (a parsed brace span is an object, hence truthy). -/
theorem finalStep_ok_of_extract (t : String) (j : JsValue) (m : String)
    (hext : extractJson t = some j) :
    finalStep (.ok t) m = .ok (normalizeResult j) := by
  obtain ⟨fs, rfl⟩ := extractJson_obj _ _ hext
  unfold extractJson at hext
  rcases Option.bind_eq_some.mp hext with ⟨sp, hsp, hpj⟩
  simp only [finalStep, hsp, hpj, JsValue.jsFalsy, Bool.false_eq_true, if_false]

/-- Every final-step outcome is an error or a normalized parsed object. -/
theorem finalStep_cases (c : Completion) (m : String) :
    (∃ e, finalStep c m = .error e) ∨
    (∃ fs, finalStep c m = .ok (normalizeResult (.obj fs))) := by
  cases c with
  | error e => exact Or.inl ⟨e, rfl⟩
  | ok t =>
    cases hext : extractJson t with
    | some j =>
      obtain ⟨fs, rfl⟩ := extractJson_obj _ _ hext
      exact Or.inr ⟨fs, finalStep_ok_of_extract _ _ _ hext⟩
    | none =>
      unfold extractJson at hext
      cases hsp : braceSpan t.data with
      | none =>
        simp only [finalStep, hsp]
        exact Or.inl ⟨m, rfl⟩
      | some sp =>
        rw [hsp] at hext
        cases hpj : parseJson sp with
        | none =>
          simp only [finalStep, hsp, hpj]
          exact Or.inl ⟨jsonParseErrorMessage, rfl⟩
        | some j => rw [Option.some_bind, hpj] at hext; simp at hext

/-- Reduction of stage-1 validation on a successfully extracted payload. -/
theorem sentimentStep_of_extract (t : String) (j : JsValue) (hext : extractJson t = some j)
    (n : Nat) :
    sentimentStep (.ok t) n =
      (if j.jsFalsy || !(j.jsGet "sentiments").isArrayV then
        Except.error "No valid sentiments array in OpenAI response"
      else if ((j.jsGet "sentiments").toArr).length ≠ n then
        Except.error "Sentiment array length mismatch"
      else Except.ok ((j.jsGet "sentiments").toArr)) := by
  unfold extractJson at hext
  rcases Option.bind_eq_some.mp hext with ⟨sp, hsp, hpj⟩
  simp only [sentimentStep, hsp, hpj]

/-- A sentiments array of the wrong length fails stage-1 validation with
the mismatch message. -/
theorem sentimentStep_mismatch (t : String) (j : JsValue) (hext : extractJson t = some j)
    (ss : List JsValue) (hs : j.jsGet "sentiments" = .arr ss) (n : Nat) (hlen : ss.length ≠ n) :
    sentimentStep (.ok t) n = .error "Sentiment array length mismatch" := by
  obtain ⟨fs, rfl⟩ := extractJson_obj _ _ hext
  rw [sentimentStep_of_extract _ _ hext, hs]
  simp [JsValue.jsFalsy, JsValue.isArrayV, JsValue.toArr, hlen]

theorem sentimentStep_ok_aux (v : JsValue) (n : Nat) (ss : List JsValue)
    (harr : v.isArrayV = true)
    (hlen : ¬v.toArr.length ≠ n)
    (h : Except.ok (ε := String) v.toArr = Except.ok ss) :
    v = .arr ss ∧ ss.length = n := by
  cases hv : v with
  | arr xs =>
    subst hv
    have hxss : xs = ss := by simpa [JsValue.toArr] using h
    subst hxss
    simp only [JsValue.toArr] at hlen
    exact ⟨rfl, by omega⟩
  | undefined => rw [hv] at harr; simp [JsValue.isArrayV] at harr
  | null => rw [hv] at harr; simp [JsValue.isArrayV] at harr
  | bool b => rw [hv] at harr; simp [JsValue.isArrayV] at harr
  | num m => rw [hv] at harr; simp [JsValue.isArrayV] at harr
  | str s => rw [hv] at harr; simp [JsValue.isArrayV] at harr
  | obj gs => rw [hv] at harr; simp [JsValue.isArrayV] at harr

/-- Stage-1 validation accepts exactly the payloads whose `sentiments`
field is an array of the batch length — nothing about the elements. -/
theorem sentimentStep_ok_iff (t : String) (j : JsValue) (hext : extractJson t = some j)
    (n : Nat) (ss : List JsValue) :
    sentimentStep (.ok t) n = .ok ss ↔ j.jsGet "sentiments" = .arr ss ∧ ss.length = n := by
  obtain ⟨fs, rfl⟩ := extractJson_obj _ _ hext
  rw [sentimentStep_of_extract _ _ hext]
  constructor
  · intro h
    split at h
    · exact absurd h (by simp)
    · rename_i hcond
      split at h
      · exact absurd h (by simp)
      · rename_i hlen
        have harr : ((JsValue.obj fs).jsGet "sentiments").isArrayV = true := by
          by_contra hna
          simp [Bool.not_eq_true] at hna
          simp [hna] at hcond
        exact sentimentStep_ok_aux _ n ss harr hlen h
  · rintro ⟨hs, hlen⟩
    rw [hs]
    simp [JsValue.jsFalsy, JsValue.isArrayV, JsValue.toArr, hlen]

theorem reviews_guard_pass (rs : List JsValue) (hrs : rs ≠ []) :
    ((JsValue.arr rs).jsFalsy || !(JsValue.arr rs).isArrayV || (JsValue.arr rs).arrLen == 0)
      = false := by
  simp [JsValue.jsFalsy, JsValue.isArrayV, JsValue.arrLen, hrs]

theorem POST_noKey (apiKey : Option String) (reviews locale : JsValue) (c1 c2 : Completion)
    (hkey : envFalsy apiKey = true) :
    POST apiKey reviews locale c1 c2 = (errorResponse "OpenAI API key not set." 500, 0) := by
  simp only [POST, hkey, if_true]

theorem POST_badReviews (apiKey : Option String) (reviews locale : JsValue) (c1 c2 : Completion)
    (hkey : envFalsy apiKey = false)
    (hbad : (reviews.jsFalsy || !reviews.isArrayV || reviews.arrLen == 0) = true) :
    POST apiKey reviews locale c1 c2 = (errorResponse "No reviews provided." 400, 0) := by
  simp only [POST, hkey, hbad, Bool.false_eq_true, if_false, if_true]

theorem POST_ko_reduce (apiKey : Option String) (rs : List JsValue) (c1 c2 : Completion)
    (hkey : envFalsy apiKey = false) (hrs : rs ≠ []) :
    POST apiKey (.arr rs) (.str "ko") c1 c2 =
      (match sentimentStep c1 rs.length with
      | .error e => (errorResponse (msgOr e "OpenAI sentiment step error") 500, 1)
      | .ok _ =>
        match finalStep c2 "No JSON in OpenAI keyword response" with
        | .error e => (errorResponse (msgOr e "OpenAI keyword step error") 500, 2)
        | .ok body => (jsonResponse body, 2)) := by
  simp only [POST, hkey, Bool.false_eq_true, if_false, isKoLocale, JsValue.arrLen]
  simp [JsValue.jsFalsy, JsValue.isArrayV, hrs]

theorem POST_single_reduce (apiKey : Option String) (rs : List JsValue) (locale : JsValue)
    (c1 c2 : Completion) (hkey : envFalsy apiKey = false) (hrs : rs ≠ [])
    (hloc : isKoLocale locale = false) :
    POST apiKey (.arr rs) locale c1 c2 =
      (match finalStep c1 "No JSON in OpenAI response" with
      | .error e => (errorResponse (msgOr e "OpenAI error") 500, 1)
      | .ok body => (jsonResponse body, 1)) := by
  simp only [POST, hkey, hloc, Bool.false_eq_true, if_false, JsValue.arrLen]
  simp [JsValue.jsFalsy, JsValue.isArrayV, hrs]

theorem reviews_guard_fail (reviews : JsValue)
    (h : (∀ rs, reviews ≠ .arr rs) ∨ reviews = .arr []) :
    (reviews.jsFalsy || !reviews.isArrayV || reviews.arrLen == 0) = true := by
  rcases h with h | rfl
  · cases reviews with
    | arr rs => exact absurd rfl (h rs)
    | undefined => rfl
    | null => rfl
    | bool b => simp [JsValue.jsFalsy, JsValue.isArrayV]
    | num n => simp [JsValue.jsFalsy, JsValue.isArrayV]
    | str s => simp [JsValue.jsFalsy, JsValue.isArrayV]
    | obj fs => simp [JsValue.jsFalsy, JsValue.isArrayV]
  · simp [JsValue.jsFalsy, JsValue.isArrayV, JsValue.arrLen]

theorem reviews_guard_inv (reviews : JsValue)
    (h : (reviews.jsFalsy || !reviews.isArrayV || reviews.arrLen == 0) = false) :
    ∃ rs, reviews = .arr rs ∧ rs ≠ [] := by
  cases reviews with
  | arr rs =>
    refine ⟨rs, rfl, ?_⟩
    intro hnil
    subst hnil
    simp [JsValue.jsFalsy, JsValue.isArrayV, JsValue.arrLen] at h
  | undefined => simp [JsValue.jsFalsy] at h
  | null => simp [JsValue.jsFalsy] at h
  | bool b => simp [JsValue.jsFalsy, JsValue.isArrayV] at h
  | num n => simp [JsValue.jsFalsy, JsValue.isArrayV] at h
  | str s => simp [JsValue.jsFalsy, JsValue.isArrayV] at h
  | obj fs => simp [JsValue.jsFalsy, JsValue.isArrayV] at h

theorem isKoLocale_inv (locale : JsValue) (h : isKoLocale locale = true) :
    locale = .str "ko" := by
  cases locale with
  | str s =>
    simp only [isKoLocale, decide_eq_true_eq] at h
    rw [h]
  | undefined => simp [isKoLocale] at h
  | null => simp [isKoLocale] at h
  | bool b => simp [isKoLocale] at h
  | num n => simp [isKoLocale] at h
  | arr xs => simp [isKoLocale] at h
  | obj fs => simp [isKoLocale] at h

theorem isKoLocale_false_of_ne (locale : JsValue) (h : locale ≠ .str "ko") :
    isKoLocale locale = false := by
  cases hk : isKoLocale locale with
  | false => rfl
  | true => exact absurd (isKoLocale_inv locale hk) h

/-! ### Claims -/

/-- Claim C2: in the normalizer, whenever the parsed payload's
`positive` (respectively `negative`) field is absent, non-numeric, or
NaN, it is recomputed as `positiveCount / totalCount * 100`
(respectively `negativeCount / totalCount * 100`) when `totalCount > 0`,
and defaulted to `0` when `totalCount` is not `> 0`. -/
theorem C2_percentage_fallback (fs : List (String × JsValue)) (t : Frac)
    (ht : (JsValue.obj fs).jsGet "totalCount" = .num (.val t)) :
    (∀ p : Frac, (JsValue.obj fs).jsGet "positiveCount" = .num (.val p) →
      isNumberNonNaN ((JsValue.obj fs).jsGet "positive") = false →
      ∃ f : Frac, (normalizeResult (.obj fs)).jsGet "positive" = .num (.val f) ∧
        f.toRat = (if 0 < t.toRat then p.toRat / t.toRat * 100 else 0))
    ∧ (∀ q : Frac, (JsValue.obj fs).jsGet "negativeCount" = .num (.val q) →
      isNumberNonNaN ((JsValue.obj fs).jsGet "negative") = false →
      ∃ f : Frac, (normalizeResult (.obj fs)).jsGet "negative" = .num (.val f) ∧
        f.toRat = (if 0 < t.toRat then q.toRat / t.toRat * 100 else 0)) := by
  have hpct : ∀ p : Frac, ∃ f : Frac,
      pctFallback (JsValue.num (.val p)) (JsValue.num (.val t)) = .val f ∧
      f.toRat = (if 0 < t.toRat then p.toRat / t.toRat * 100 else 0) := by
    intro p
    unfold pctFallback
    cases hpos : jsGtZero (JsValue.num (JsNumber.val t)) with
    | true =>
      have hposT : t.isPos = true := by simpa [jsGtZero, toNumber] using hpos
      have hz : t.isZero = false := Frac.isZero_false_of_isPos t hposT
      refine ⟨(p.div t).mul (.ofInt 100), ?_, ?_⟩
      · simp [JsNumber.jsDiv, JsNumber.jsMul, toNumber, hz]
      · rw [Frac.toRat_mul, Frac.toRat_div, Frac.toRat_ofInt,
          if_pos ((Frac.isPos_iff t).mp hposT)]
        norm_num
    | false =>
      have hposT : t.isPos = false := by simpa [jsGtZero, toNumber] using hpos
      refine ⟨.ofInt 0, rfl, ?_⟩
      rw [Frac.toRat_ofInt, if_neg ?_]
      · norm_num
      · intro hlt
        rw [(Frac.isPos_iff t).mpr hlt] at hposT
        exact Bool.true_eq_false ▸ hposT
  constructor
  · intro p hp hnn
    obtain ⟨f, hf, hval⟩ := hpct p
    refine ⟨f, ?_, hval⟩
    unfold normalizeResult
    rw [normalizeNegative_frame _ _ (by decide)]
    unfold normalizePositive
    rw [hnn]
    simp only [Bool.false_eq_true, if_false, hp, ht, hf]
    rw [jsGet_jsSet_eq]
  · intro q hq hnn
    obtain ⟨f, hf, hval⟩ := hpct q
    refine ⟨f, ?_, hval⟩
    unfold normalizeResult
    have hq1 : (normalizePositive (.obj fs)).jsGet "negativeCount" = .num (.val q) := by
      rw [normalizePositive_frame _ _ (by decide), hq]
    have ht1 : (normalizePositive (.obj fs)).jsGet "totalCount" = .num (.val t) := by
      rw [normalizePositive_frame _ _ (by decide), ht]
    have hnn1 : isNumberNonNaN ((normalizePositive (.obj fs)).jsGet "negative") = false := by
      rw [normalizePositive_frame _ _ (by decide), hnn]
    obtain ⟨gs, hgs⟩ := normalizePositive_obj fs
    unfold normalizeNegative
    rw [hnn1]
    simp only [Bool.false_eq_true, if_false, hq1, ht1, hf]
    rw [hgs, jsGet_jsSet_eq]

/-- Witness for C2 at the spec's concrete inputs: `positiveCount = 3`,
`totalCount = 4` yields `positive = 75`; `totalCount = 0` yields the
fallback `0`, not NaN or a division error. -/
theorem C2_percentage_fallback_witness :
    (∃ f : Frac, (normalizeResult (.obj [("positiveCount", .num (.val (.ofInt 3))),
        ("negativeCount", .num (.val (.ofInt 1))),
        ("totalCount", .num (.val (.ofInt 4)))])).jsGet "positive" = .num (.val f) ∧
      f.toRat = 75)
    ∧ (∃ f : Frac, (normalizeResult (.obj [("positiveCount", .num (.val (.ofInt 2))),
        ("totalCount", .num (.val (.ofInt 0)))])).jsGet "positive" = .num (.val f) ∧
      f.toRat = 0) := by
  constructor
  · obtain ⟨f, hf, hval⟩ :=
      (C2_percentage_fallback [("positiveCount", .num (.val (.ofInt 3))),
        ("negativeCount", .num (.val (.ofInt 1))),
        ("totalCount", .num (.val (.ofInt 4)))] (.ofInt 4) rfl).1 (.ofInt 3) rfl rfl
    refine ⟨f, hf, ?_⟩
    rw [hval]
    norm_num [Frac.toRat, Frac.ofInt]
  · obtain ⟨f, hf, hval⟩ :=
      (C2_percentage_fallback [("positiveCount", .num (.val (.ofInt 2))),
        ("totalCount", .num (.val (.ofInt 0)))] (.ofInt 0) rfl).1 (.ofInt 2) rfl rfl
    refine ⟨f, hf, ?_⟩
    rw [hval]
    norm_num [Frac.toRat, Frac.ofInt]

/-- Claim C3: the extractor takes the greedy span from the first opening
brace to the last closing brace and parses it: prose-wrapped JSON is
extracted; text with no opening brace (or no closing brace after it)
fails; an invalid span fails with no best-effort repair; the span is the
greedy one (two objects in one text make the span unparseable, and a
nested object is kept whole). -/
theorem C3_extractor :
    extractJson "Sure! \x7b\"a\":1\x7d Thanks." = some (.obj [("a", .num (.val (.ofInt 1)))])
    ∧ (∀ s : String, '\x7b' ∉ s.data → extractJson s = none)
    ∧ extractJson "\x7d \x7b" = none
    ∧ extractJson "Sure! \x7b\"a\":1, \x7d Thanks." = none
    ∧ extractJson "\x7b\"a\":1\x7d mid \x7b\"b\":2\x7d" = none
    ∧ extractJson "pre \x7b\"a\": \x7b\"b\": 2\x7d\x7d post"
        = some (.obj [("a", .obj [("b", .num (.val (.ofInt 2)))])]) := by
  refine ⟨rfl, ?_, rfl, rfl, rfl, rfl⟩
  intro s hs
  unfold extractJson braceSpan
  rw [firstBraceSplit_none _ hs]
  rfl

/-- Witness for C3: a concrete brace-free text yields an extraction
failure. -/
theorem C3_extractor_witness : extractJson "no braces here" = none :=
  C3_extractor.2.1 "no braces here" (by decide)

/-- Claim C4: in the two-pass strategy, a stage-1 sentiments sequence of
the wrong length fails the whole request with the length-mismatch error
after exactly one inference call — stage 2 is never invoked and there is
no fallback to the single-pass strategy (the outcome is the same for
every stage-2 oracle `c2`). -/
theorem C4_length_mismatch (apiKey : Option String) (rs : List JsValue) (c2 : Completion)
    (t : String) (j : JsValue) (ss : List JsValue)
    (hkey : envFalsy apiKey = false) (hrs : rs ≠ [])
    (hext : extractJson t = some j) (hs : j.jsGet "sentiments" = .arr ss)
    (hlen : ss.length ≠ rs.length) :
    POST apiKey (.arr rs) (.str "ko") (.ok t) c2
      = (errorResponse "Sentiment array length mismatch" 500, 1) := by
  rw [POST_ko_reduce apiKey rs (.ok t) c2 hkey hrs,
    sentimentStep_mismatch t j hext ss hs rs.length hlen]
  rfl

/-- Witness for C4: a two-element sentiments array against a one-review
batch fails with the mismatch error and a single call. -/
theorem C4_length_mismatch_witness :
    POST (some "key") (.arr [.str "r1"]) (.str "ko")
      (.ok "\x7b\"sentiments\":[\"positive\",\"negative\"]\x7d") (.ok "")
      = (errorResponse "Sentiment array length mismatch" 500, 1) :=
  C4_length_mismatch (some "key") [.str "r1"] (.ok "")
    "\x7b\"sentiments\":[\"positive\",\"negative\"]\x7d"
    (.obj [("sentiments", .arr [.str "positive", .str "negative"])])
    [.str "positive", .str "negative"] rfl (List.cons_ne_nil _ _) rfl rfl (by decide)

/-- Claim C5 counterexample: stage-1 validation accepts a sentiments
array whose element `"banana"` is not a SentimentLabel — both inference
calls happen and the request succeeds, so a non-label element is not a
validation failure as the claim states. -/
theorem C5_counterexample :
    (POST (some "key") (.arr [.str "r1"]) (.str "ko")
        (.ok "\x7b\"sentiments\":[\"banana\"]\x7d")
        (.ok "\x7b\"totalCount\":1,\"positiveCount\":1,\"negativeCount\":0,\"positive\":100,\"negative\":0,\"keywords\":[]\x7d")).2
      = 2
    ∧ (POST (some "key") (.arr [.str "r1"]) (.str "ko")
        (.ok "\x7b\"sentiments\":[\"banana\"]\x7d")
        (.ok "\x7b\"totalCount\":1,\"positiveCount\":1,\"negativeCount\":0,\"positive\":100,\"negative\":0,\"keywords\":[]\x7d")).1.status
      = 200 :=
  ⟨rfl, rfl⟩

/-- Claim C5 amended: stage-1 validation accepts a payload exactly when
its `sentiments` field is an array whose length equals the batch length;
the elements themselves are never checked against the SentimentLabel
set, so non-label elements are accepted whole. -/
theorem C5_stage1_validation (t : String) (j : JsValue) (hext : extractJson t = some j)
    (n : Nat) (ss : List JsValue) :
    sentimentStep (.ok t) n = .ok ss ↔ j.jsGet "sentiments" = .arr ss ∧ ss.length = n :=
  sentimentStep_ok_iff t j hext n ss

/-- Witness for the amended C5: a sentiments array containing only the
non-label string `"banana"` is accepted for a one-review batch. -/
theorem C5_stage1_validation_witness :
    sentimentStep (.ok "\x7b\"sentiments\":[\"banana\"]\x7d") 1 = .ok [.str "banana"] :=
  (C5_stage1_validation "\x7b\"sentiments\":[\"banana\"]\x7d"
    (.obj [("sentiments", .arr [.str "banana"])]) rfl 1 [.str "banana"]).mpr ⟨rfl, rfl⟩

/-- Claim C6: missing credentials, and a missing / non-sequence / empty
batch, each terminate immediately with a classified error and zero
inference calls; the credentials check precedes everything, so it wins
even when the batch is also invalid. -/
theorem C6_preflight (reviews locale : JsValue) (c1 c2 : Completion) :
    (∀ apiKey, envFalsy apiKey = true →
      POST apiKey reviews locale c1 c2 = (errorResponse "OpenAI API key not set." 500, 0))
    ∧ (∀ apiKey, ((∀ rs, reviews ≠ .arr rs) ∨ reviews = .arr []) →
      POST apiKey reviews locale c1 c2 = (errorResponse "OpenAI API key not set." 500, 0)
      ∨ POST apiKey reviews locale c1 c2 = (errorResponse "No reviews provided." 400, 0)) := by
  constructor
  · intro apiKey hkey
    exact POST_noKey apiKey reviews locale c1 c2 hkey
  · intro apiKey hbad
    cases hkey : envFalsy apiKey with
    | true => exact Or.inl (POST_noKey apiKey reviews locale c1 c2 hkey)
    | false =>
      exact Or.inr
        (POST_badReviews apiKey reviews locale c1 c2 hkey (reviews_guard_fail reviews hbad))

/-- Witness for C6: an absent key, and an absent batch, each yield the
classified error with zero inference calls. -/
theorem C6_preflight_witness :
    POST none (.arr [.str "r"]) (.str "en") (.ok "x") (.ok "y")
      = (errorResponse "OpenAI API key not set." 500, 0)
    ∧ (POST (some "key") .undefined (.str "en") (.ok "x") (.ok "y")
        = (errorResponse "OpenAI API key not set." 500, 0)
      ∨ POST (some "key") .undefined (.str "en") (.ok "x") (.ok "y")
        = (errorResponse "No reviews provided." 400, 0)) :=
  ⟨(C6_preflight (.arr [.str "r"]) (.str "en") (.ok "x") (.ok "y")).1 none rfl,
   (C6_preflight .undefined (.str "en") (.ok "x") (.ok "y")).2 (some "key")
     (Or.inl (fun _ h => JsValue.noConfusion h))⟩

/-- Claim C7: the normalizer modifies at most the `positive` and
`negative` percentage fields — every other field (`totalCount`,
`positiveCount`, `negativeCount`, `keywords`, anything else) is returned
exactly as parsed — and a model-reported numeric percentage is passed
through as-is, with no renormalization of `positive + negative` toward
100 and no cross-check against the counts. -/
theorem C7_normalizer_frame (j : JsValue) :
    (∀ k, k ≠ "positive" → k ≠ "negative" → (normalizeResult j).jsGet k = j.jsGet k)
    ∧ (isNumberNonNaN (j.jsGet "positive") = true →
        (normalizeResult j).jsGet "positive" = j.jsGet "positive")
    ∧ (isNumberNonNaN (j.jsGet "negative") = true →
        (normalizeResult j).jsGet "negative" = j.jsGet "negative") :=
  ⟨fun k hp hn => normalizeResult_frame j k hp hn,
   normalizeResult_keeps_positive j, normalizeResult_keeps_negative j⟩

/-- Witness for C7 on an inconsistent model payload
(`positive + negative = 180`, counts unrelated to the percentages):
counts and both percentages pass through unchanged. -/
theorem C7_normalizer_frame_witness :
    (normalizeResult (.obj [("totalCount", .num (.val (.ofInt 10))),
        ("positiveCount", .num (.val (.ofInt 1))),
        ("negativeCount", .num (.val (.ofInt 1))),
        ("positive", .num (.val (.ofInt 90))),
        ("negative", .num (.val (.ofInt 90))),
        ("keywords", .arr [])])).jsGet "totalCount" = .num (.val (.ofInt 10))
    ∧ (normalizeResult (.obj [("totalCount", .num (.val (.ofInt 10))),
        ("positiveCount", .num (.val (.ofInt 1))),
        ("negativeCount", .num (.val (.ofInt 1))),
        ("positive", .num (.val (.ofInt 90))),
        ("negative", .num (.val (.ofInt 90))),
        ("keywords", .arr [])])).jsGet "positive" = .num (.val (.ofInt 90))
    ∧ (normalizeResult (.obj [("totalCount", .num (.val (.ofInt 10))),
        ("positiveCount", .num (.val (.ofInt 1))),
        ("negativeCount", .num (.val (.ofInt 1))),
        ("positive", .num (.val (.ofInt 90))),
        ("negative", .num (.val (.ofInt 90))),
        ("keywords", .arr [])])).jsGet "negative" = .num (.val (.ofInt 90)) := by
  have h := C7_normalizer_frame (JsValue.obj [("totalCount", .num (.val (.ofInt 10))),
    ("positiveCount", .num (.val (.ofInt 1))),
    ("negativeCount", .num (.val (.ofInt 1))),
    ("positive", .num (.val (.ofInt 90))),
    ("negative", .num (.val (.ofInt 90))),
    ("keywords", .arr [])])
  refine ⟨?_, ?_, ?_⟩
  · exact (h.1 "totalCount" (by decide) (by decide)).trans rfl
  · exact (h.2.1 rfl).trans rfl
  · exact (h.2.2 rfl).trans rfl

/-- Claim C1 counterexample: the single-pass payload `\x7b\x7d` parses, so
the request succeeds with status 200, yet the response body carries none
of the required AnalysisResult fields (`totalCount` and `keywords` are
absent); moreover a model-reported `positive` of 150 is passed through
(numeric but above 100), and a payload with numeric `totalCount` but no
`positiveCount` yields `positive = NaN`.  So a success is not always a
fully-populated AnalysisResult with percentages in [0,100]. -/
theorem C1_counterexample :
    (POST (some "key") (.arr [.str "good"]) (.str "en") (.ok "\x7b\x7d") (.ok "")).1.status = 200
    ∧ (POST (some "key") (.arr [.str "good"]) (.str "en")
        (.ok "\x7b\x7d") (.ok "")).1.body.jsGet "totalCount" = .undefined
    ∧ (POST (some "key") (.arr [.str "good"]) (.str "en")
        (.ok "\x7b\x7d") (.ok "")).1.body.jsGet "keywords" = .undefined
    ∧ (POST (some "key") (.arr [.str "good"]) (.str "en")
        (.ok "\x7b\"positive\":150,\"negative\":-50\x7d") (.ok "")).1.body.jsGet "positive"
      = .num (.val ⟨150, 1⟩)
    ∧ 100 < (Frac.mk 150 1).toRat
    ∧ (POST (some "key") (.arr [.str "good"]) (.str "en")
        (.ok "\x7b\"totalCount\":5\x7d") (.ok "")).1.body.jsGet "positive" = .num .nan :=
  ⟨rfl, rfl, rfl, rfl, by norm_num [Frac.toRat], rfl⟩

/-- Claim C1 amended: every response is either a failure whose body is
exactly the error object with a non-empty human-readable message and a
non-200 status (never a partial AnalysisResult), or a success (status
200) whose body carries `positive` and `negative` as number-typed
fields; presence of the remaining AnalysisResult fields and the [0,100]
range of the percentages are not guaranteed. -/
theorem C1_response_contract (apiKey : Option String) (reviews locale : JsValue)
    (c1 c2 : Completion) :
    (∃ msg, msg ≠ "" ∧
      (POST apiKey reviews locale c1 c2).1.body = .obj [("error", .str msg)] ∧
      (POST apiKey reviews locale c1 c2).1.status ≠ 200)
    ∨ ((POST apiKey reviews locale c1 c2).1.status = 200 ∧
      (∃ n, (POST apiKey reviews locale c1 c2).1.body.jsGet "positive" = .num n) ∧
      (∃ n, (POST apiKey reviews locale c1 c2).1.body.jsGet "negative" = .num n)) := by
  cases hkey : envFalsy apiKey with
  | true =>
    rw [POST_noKey apiKey reviews locale c1 c2 hkey]
    exact Or.inl ⟨"OpenAI API key not set.", by decide, rfl, by decide⟩
  | false =>
    cases hbad : (reviews.jsFalsy || !reviews.isArrayV || reviews.arrLen == 0) with
    | true =>
      rw [POST_badReviews apiKey reviews locale c1 c2 hkey hbad]
      exact Or.inl ⟨"No reviews provided.", by decide, rfl, by decide⟩
    | false =>
      obtain ⟨rs, rfl, hrs⟩ := reviews_guard_inv reviews hbad
      cases hko : isKoLocale locale with
      | true =>
        obtain rfl := isKoLocale_inv locale hko
        rw [POST_ko_reduce apiKey rs c1 c2 hkey hrs]
        cases hst : sentimentStep c1 rs.length with
        | error e =>
          exact Or.inl ⟨msgOr e "OpenAI sentiment step error",
            msgOr_ne_empty _ _ (by decide), rfl, show (500 : Nat) ≠ 200 by decide⟩
        | ok ss =>
          rcases finalStep_cases c2 "No JSON in OpenAI keyword response" with ⟨e, he⟩ | ⟨fs, hok⟩
          · rw [he]
            exact Or.inl ⟨msgOr e "OpenAI keyword step error",
              msgOr_ne_empty _ _ (by decide), rfl, show (500 : Nat) ≠ 200 by decide⟩
          · rw [hok]
            exact Or.inr ⟨rfl, (normalizeResult_isNum fs).1, (normalizeResult_isNum fs).2⟩
      | false =>
        rw [POST_single_reduce apiKey rs locale c1 c2 hkey hrs hko]
        rcases finalStep_cases c1 "No JSON in OpenAI response" with ⟨e, he⟩ | ⟨fs, hok⟩
        · rw [he]
          exact Or.inl ⟨msgOr e "OpenAI error", msgOr_ne_empty _ _ (by decide), rfl,
            show (500 : Nat) ≠ 200 by decide⟩
        · rw [hok]
          exact Or.inr ⟨rfl, (normalizeResult_isNum fs).1, (normalizeResult_isNum fs).2⟩

set_option maxRecDepth 8192 in
/-- Claim C8 counterexample: a single-pass payload whose only keyword
carries `reviewIndices = [5]` against `totalCount = 1` is returned as a
success — the out-of-range index is not rejected, violating the spec's
index-integrity property. -/
theorem C8_counterexample :
    (POST (some "key") (.arr [.str "only"]) (.str "en")
        (.ok "\x7b\"totalCount\":1,\"positiveCount\":1,\"negativeCount\":0,\"positive\":100,\"negative\":0,\"keywords\":[\x7b\"keyword\":\"price\",\"sentiment\":\"positive\",\"count\":1,\"reviewIndices\":[5],\"aspect\":\"price\"\x7d]\x7d")
        (.ok "")).1.status = 200
    ∧ ¬ SpecIndexIntegrity (POST (some "key") (.arr [.str "only"]) (.str "en")
        (.ok "\x7b\"totalCount\":1,\"positiveCount\":1,\"negativeCount\":0,\"positive\":100,\"negative\":0,\"keywords\":[\x7b\"keyword\":\"price\",\"sentiment\":\"positive\",\"count\":1,\"reviewIndices\":[5],\"aspect\":\"price\"\x7d]\x7d")
        (.ok "")).1.body := by
  constructor
  · rfl
  · intro h
    obtain ⟨f, hf, hnn, tt, htc, hlt⟩ := h
      (JsValue.obj [("keyword", .str "price"), ("sentiment", .str "positive"),
        ("count", .num (.val ⟨1, 1⟩)), ("reviewIndices", .arr [.num (.val ⟨5, 1⟩)]),
        ("aspect", .str "price")]) (List.Mem.head _)
      (.num (.val ⟨5, 1⟩)) (List.Mem.head _)
    have hf5 : f = ⟨5, 1⟩ := by
      injection hf with h1
      injection h1 with h2
      exact h2.symm
    have htt : tt = ⟨1, 1⟩ := by
      have h2 : JsValue.num (.val ⟨1, 1⟩) = .num (.val tt) := htc
      injection h2 with h3
      injection h3 with h4
      exact h4.symm
    subst hf5
    subst htt
    norm_num [Frac.toRat] at hlt

/-- Claim C8 amended: the pipeline performs no index-integrity check on
`reviewIndices`: any successfully parsed single-pass payload is returned
as a success (status 200) with its `keywords` — and therefore every
`reviewIndices` entry — exactly as the model produced them, whatever
indices they contain. -/
theorem C8_no_index_check (apiKey : Option String) (rs : List JsValue) (t : String)
    (j : JsValue) (c2 : Completion)
    (hkey : envFalsy apiKey = false) (hrs : rs ≠ []) (hext : extractJson t = some j) :
    (POST apiKey (.arr rs) (.str "en") (.ok t) c2).1.status = 200
    ∧ (POST apiKey (.arr rs) (.str "en") (.ok t) c2).1.body.jsGet "keywords"
        = j.jsGet "keywords" := by
  rw [POST_single_reduce apiKey rs (.str "en") (.ok t) c2 hkey hrs rfl,
    finalStep_ok_of_extract t j "No JSON in OpenAI response" hext]
  exact ⟨rfl, normalizeResult_frame j "keywords" (by decide) (by decide)⟩

set_option maxRecDepth 8192 in
/-- Witness for the amended C8: the out-of-range payload of the
counterexample is served unchanged. -/
theorem C8_no_index_check_witness :
    (POST (some "key") (.arr [.str "only"]) (.str "en")
        (.ok "\x7b\"totalCount\":2,\"positiveCount\":2,\"negativeCount\":0,\"positive\":100,\"negative\":0,\"keywords\":[\x7b\"keyword\":\"price\",\"sentiment\":\"positive\",\"count\":1,\"reviewIndices\":[9],\"aspect\":\"price\"\x7d]\x7d")
        (.ok "")).1.status = 200
    ∧ (POST (some "key") (.arr [.str "only"]) (.str "en")
        (.ok "\x7b\"totalCount\":2,\"positiveCount\":2,\"negativeCount\":0,\"positive\":100,\"negative\":0,\"keywords\":[\x7b\"keyword\":\"price\",\"sentiment\":\"positive\",\"count\":1,\"reviewIndices\":[9],\"aspect\":\"price\"\x7d]\x7d")
        (.ok "")).1.body.jsGet "keywords"
      = (JsValue.obj [("totalCount", .num (.val ⟨2, 1⟩)), ("positiveCount", .num (.val ⟨2, 1⟩)),
          ("negativeCount", .num (.val ⟨0, 1⟩)), ("positive", .num (.val ⟨100, 1⟩)),
          ("negative", .num (.val ⟨0, 1⟩)),
          ("keywords", .arr [JsValue.obj [("keyword", .str "price"),
            ("sentiment", .str "positive"), ("count", .num (.val ⟨1, 1⟩)),
            ("reviewIndices", .arr [.num (.val ⟨9, 1⟩)]),
            ("aspect", .str "price")]])]).jsGet "keywords" :=
  C8_no_index_check (some "key") [.str "only"]
    "\x7b\"totalCount\":2,\"positiveCount\":2,\"negativeCount\":0,\"positive\":100,\"negative\":0,\"keywords\":[\x7b\"keyword\":\"price\",\"sentiment\":\"positive\",\"count\":1,\"reviewIndices\":[9],\"aspect\":\"price\"\x7d]\x7d"
    (JsValue.obj [("totalCount", .num (.val ⟨2, 1⟩)), ("positiveCount", .num (.val ⟨2, 1⟩)),
      ("negativeCount", .num (.val ⟨0, 1⟩)), ("positive", .num (.val ⟨100, 1⟩)),
      ("negative", .num (.val ⟨0, 1⟩)),
      ("keywords", .arr [JsValue.obj [("keyword", .str "price"),
        ("sentiment", .str "positive"), ("count", .num (.val ⟨1, 1⟩)),
        ("reviewIndices", .arr [.num (.val ⟨9, 1⟩)]),
        ("aspect", .str "price")]])])
    (.ok "") rfl (List.cons_ne_nil _ _) rfl

/-- Claim C9: exactly one call strategy per request, chosen once from
the locale.  With a valid key and batch, locale `"ko"` takes the
two-pass strategy — the second inference call happens iff stage-1
validation succeeds, so exactly two sequential calls are made in that
case and never without it — while every other locale makes exactly one
inference call (single-pass); the strategies are mutually exclusive. -/
theorem C9_strategy (apiKey : Option String) (rs : List JsValue) (locale : JsValue)
    (c1 c2 : Completion) (hkey : envFalsy apiKey = false) (hrs : rs ≠ []) :
    (locale = .str "ko" →
      ((POST apiKey (.arr rs) locale c1 c2).2 = 2
        ↔ ∃ ss, sentimentStep c1 rs.length = .ok ss)
      ∧ ((POST apiKey (.arr rs) locale c1 c2).2 = 2
        ∨ (POST apiKey (.arr rs) locale c1 c2).2 = 1))
    ∧ (locale ≠ .str "ko" → (POST apiKey (.arr rs) locale c1 c2).2 = 1) := by
  constructor
  · rintro rfl
    rw [POST_ko_reduce apiKey rs c1 c2 hkey hrs]
    cases hst : sentimentStep c1 rs.length with
    | error e =>
      constructor
      · simp
      · exact Or.inr rfl
    | ok ss =>
      rcases finalStep_cases c2 "No JSON in OpenAI keyword response" with ⟨e, he⟩ | ⟨fs, hok⟩
      · rw [he]
        exact ⟨⟨fun _ => ⟨ss, rfl⟩, fun _ => rfl⟩, Or.inl rfl⟩
      · rw [hok]
        exact ⟨⟨fun _ => ⟨ss, rfl⟩, fun _ => rfl⟩, Or.inl rfl⟩
  · intro hne
    rw [POST_single_reduce apiKey rs locale c1 c2 hkey hrs (isKoLocale_false_of_ne locale hne)]
    rcases finalStep_cases c1 "No JSON in OpenAI response" with ⟨e, he⟩ | ⟨fs, hok⟩
    · rw [he]
    · rw [hok]

/-- Witness for C9: a Korean-locale request makes two calls; an
English-locale request makes one. -/
theorem C9_strategy_witness :
    (POST (some "key") (.arr [.str "r"]) (.str "ko")
        (.ok "\x7b\"sentiments\":[\"positive\"]\x7d") (.ok "\x7b\x7d")).2 = 2
    ∧ (POST (some "key") (.arr [.str "r"]) (.str "en") (.ok "\x7b\x7d") (.ok "")).2 = 1 :=
  ⟨(((C9_strategy (some "key") [.str "r"] (.str "ko")
        (.ok "\x7b\"sentiments\":[\"positive\"]\x7d") (.ok "\x7b\x7d") rfl
        (List.cons_ne_nil _ _)).1 rfl).1).mpr ⟨[.str "positive"], rfl⟩,
   (C9_strategy (some "key") [.str "r"] (.str "en") (.ok "\x7b\x7d") (.ok "") rfl
      (List.cons_ne_nil _ _)).2 (by simp)⟩

/-- Claim C10: request validation rejects the batch only when it is
missing, not an array, or of length zero; any non-empty array — whatever
its elements, including `[""]` — passes validation and the inference
service is contacted (at least one call); and the prompt's review list
embeds elements verbatim, with no trimming or filtering. -/
theorem C10_request_validation :
    (∀ (apiKey : Option String) (xs : List JsValue) (locale : JsValue) (c1 c2 : Completion),
      envFalsy apiKey = false → xs ≠ [] →
      1 ≤ (POST apiKey (.arr xs) locale c1 c2).2)
    ∧ (∀ (apiKey : Option String) (reviews locale : JsValue) (c1 c2 : Completion),
      envFalsy apiKey = false → ((∀ rs, reviews ≠ .arr rs) ∨ reviews = .arr []) →
      POST apiKey reviews locale c1 c2 = (errorResponse "No reviews provided." 400, 0))
    ∧ renderReviewList [.str ""] = "1. "
    ∧ renderReviewList [.str "  hi  ", .str ""] = "1.   hi  \n2. " := by
  refine ⟨?_, ?_, rfl, rfl⟩
  · intro apiKey xs locale c1 c2 hkey hxs
    cases hko : isKoLocale locale with
    | true =>
      obtain rfl := isKoLocale_inv locale hko
      rw [POST_ko_reduce apiKey xs c1 c2 hkey hxs]
      cases sentimentStep c1 xs.length with
      | error e => exact Nat.le_refl 1
      | ok ss =>
        cases finalStep c2 "No JSON in OpenAI keyword response" with
        | error e => exact Nat.le_succ 1
        | ok body => exact Nat.le_succ 1
    | false =>
      rw [POST_single_reduce apiKey xs locale c1 c2 hkey hxs hko]
      cases finalStep c1 "No JSON in OpenAI response" with
      | error e => exact Nat.le_refl 1
      | ok body => exact Nat.le_refl 1
  · intro apiKey reviews locale c1 c2 hkey hbad
    exact POST_badReviews apiKey reviews locale c1 c2 hkey (reviews_guard_fail reviews hbad)

/-- Witness for C10: the batch `[""]` (one empty, untrimmed string)
passes validation and the service is called; a non-array batch is
rejected with zero calls. -/
theorem C10_request_validation_witness :
    1 ≤ (POST (some "key") (.arr [.str ""]) (.str "en") (.ok "\x7b\x7d") (.ok "")).2
    ∧ POST (some "key") (.str "not an array") (.str "en") (.ok "\x7b\x7d") (.ok "")
        = (errorResponse "No reviews provided." 400, 0) :=
  ⟨C10_request_validation.1 (some "key") [.str ""] (.str "en") (.ok "\x7b\x7d") (.ok "") rfl
      (List.cons_ne_nil _ _),
   C10_request_validation.2.1 (some "key") (.str "not an array") (.str "en") (.ok "\x7b\x7d")
      (.ok "") rfl (Or.inl (fun _ h => JsValue.noConfusion h))⟩
